import Mathlib

/-!
Verification of the `sistema_bancario` repository: a shallow embedding of
the account model (src/src/models/account.py), the two transfer
disciplines (src/src/banks/phase1_bank.py, src/src/banks/phase2_bank.py),
the simulation harness (src/src/simulation/simulator.py) and its metrics
(src/src/simulation/metrics.py), together with theorems settling the
specification's claims about them.

Python floats are modelled as rationals (ℚ): every claim under scrutiny is
about comparisons, additions and subtractions of amounts, for which ℚ is
the faithful exact model.  Account ids are naturals (the spec fixes them
as unique non-negative integers).  Python exceptions are modelled as
explicit error results; in-place mutation is modelled by returning the
bank state after the call.
-/

namespace SistemaBancario

/-- Errors a transfer can raise, named after the spec's taxonomy.
`invalidRequest` is the ValueError for a same-account or non-positive
transfer, `accountNotFound` the KeyError from `Bank.get_account`, and
`insufficientFunds` the ValueError raised under both locks. -/
inductive TransferError where
  | invalidRequest
  | accountNotFound
  | insufficientFunds
deriving DecidableEq, Repr

/-- An account: id and balance, mirroring `Account.__init__`
(src/src/models/account.py).  The per-account mutex is modelled
separately, in the lock-protocol state machines below. -/
structure Account where
  id : ℕ
  balance : ℚ
deriving DecidableEq, Repr

namespace Account

/-- `Account.deposit` (account.py lines 25-38): raises
"Deposit amount must be positive" when `amount < 0`, otherwise adds
`amount` to the balance. -/
def deposit (a : Account) (amount : ℚ) : Except String Account :=
  if amount < 0 then .error "Deposit amount must be positive"
  else .ok { a with balance := a.balance + amount }

/-- `Account.withdraw` (account.py lines 40-55): raises
"Withdrawal amount must be positive" when `amount < 0`, raises
"Insufficient funds" when `balance < amount`, otherwise subtracts. -/
def withdraw (a : Account) (amount : ℚ) : Except String Account :=
  if amount < 0 then .error "Withdrawal amount must be positive"
  else if a.balance < amount then .error "Insufficient funds"
  else .ok { a with balance := a.balance - amount }

/-- `Account.get_balance` (account.py lines 57-64). -/
def get_balance (a : Account) : ℚ := a.balance

end Account

namespace Phase2Bank

/-- `Phase2Bank._get_ordered_accounts` (phase2_bank.py lines 124-143):
returns the pair sorted by id, the branch on `account1.id < account2.id`
taken verbatim from the source. -/
def get_ordered_accounts (account1 account2 : Account) : Account × Account :=
  if account1.id < account2.id then (account1, account2)
  else (account2, account1)

end Phase2Bank

/-- The bank's id → account-balance map.  `Bank.__init__`
(base_bank.py line 21) builds a dict from the account list; the map is
fixed after construction, so we model it as a function from ids to
optional balances. -/
def BankSt : Type := ℕ → Option ℚ

/-- Write one balance in the map: the effect of a single in-place
`account._balance` assignment, keyed by the account's id. -/
def updateBal (b : BankSt) (i : ℕ) (v : ℚ) : BankSt :=
  fun j => if j = i then some v else b j

/-- `Bank.__init__`'s dict comprehension over the account list
(base_bank.py line 21); a later account with the same id overwrites an
earlier one, exactly as in the Python dict. -/
def mkBank (accounts : List Account) : BankSt :=
  accounts.foldl (fun m a => updateBal m a.id a.balance) (fun _ => none)

/-- Result of one sequential `transfer` call: the error raised (if any),
the bank state after the call, and the ids whose locks were acquired, in
acquisition order. -/
structure TransferResult where
  error : Option TransferError
  bank : BankSt
  locks : List ℕ

namespace Phase1Bank

/-- `Phase1Bank.transfer` (phase1_bank.py lines 45-119), sequential
semantics.  Validations in source order: same account, non-positive
amount, then `get_account` on the source and destination ids.  Locks are
then taken in arrival order (source first, destination second); the
inter-lock `time.sleep` has no sequential effect.  Under both locks the
source balance is checked against `amount` and, if sufficient, both
balances are mutated. -/
def transfer (b : BankSt) (from_account_id to_account_id : ℕ) (amount : ℚ) :
    TransferResult :=
  if from_account_id = to_account_id then ⟨some .invalidRequest, b, []⟩
  else if amount ≤ 0 then ⟨some .invalidRequest, b, []⟩
  else match b from_account_id with
    | none => ⟨some .accountNotFound, b, []⟩
    | some fb =>
      match b to_account_id with
      | none => ⟨some .accountNotFound, b, []⟩
      | some tb =>
        if fb < amount then
          ⟨some .insufficientFunds, b, [from_account_id, to_account_id]⟩
        else
          ⟨none,
            updateBal (updateBal b from_account_id (fb - amount))
              to_account_id (tb + amount),
            [from_account_id, to_account_id]⟩

end Phase1Bank

namespace Phase2Bank

/-- `Phase2Bank.transfer` (phase2_bank.py lines 47-122), sequential
semantics.  Same validations and critical section as Phase 1; the only
difference is that the two locks are acquired in the order chosen by
`_get_ordered_accounts` (lower id first). -/
def transfer (b : BankSt) (from_account_id to_account_id : ℕ) (amount : ℚ) :
    TransferResult :=
  if from_account_id = to_account_id then ⟨some .invalidRequest, b, []⟩
  else if amount ≤ 0 then ⟨some .invalidRequest, b, []⟩
  else match b from_account_id with
    | none => ⟨some .accountNotFound, b, []⟩
    | some fb =>
      match b to_account_id with
      | none => ⟨some .accountNotFound, b, []⟩
      | some tb =>
        let ordered := get_ordered_accounts ⟨from_account_id, fb⟩
          ⟨to_account_id, tb⟩
        if fb < amount then
          ⟨some .insufficientFunds, b, [ordered.1.id, ordered.2.id]⟩
        else
          ⟨none,
            updateBal (updateBal b from_account_id (fb - amount))
              to_account_id (tb + amount),
            [ordered.1.id, ordered.2.id]⟩

end Phase2Bank

/-- Worker-pool size chosen by
`TransactionSimulator._execute_transfers_concurrently`
(simulator.py line 169): `min(len(self.transfers_data), 20)` with the
cap 20 written as a literal in the source. -/
def maxWorkers (numTransfers : ℕ) : ℕ :=
  min numTransfers 20

/-- Modelled from the spec: the pool-size formula the spec states for the
harness, `min(len(requests), workerCap)` with `workerCap` a parameter of
the run (default 20).  No such parameter exists in the source; this
definition exists to be compared against `maxWorkers`. -/
def maxWorkersSpec (numTransfers workerCap : ℕ) : ℕ :=
  min numTransfers workerCap

/-- The bank of the spec's Scenario 1: accounts (1, 1000) and (2, 1000). -/
def demoBank : BankSt :=
  mkBank [⟨1, 1000⟩, ⟨2, 1000⟩]

/-- `Transaction` (src/src/models/transaction.py): one immutable record
per attempted transfer.  The wall-clock `datetime` timestamp is modelled
as an abstract tick. -/
structure Transaction where
  from_account_id : ℕ
  to_account_id : ℕ
  amount : ℚ
  timestamp : ℕ
  success : Bool
  thread_name : String
  error_message : Option String
deriving DecidableEq, Repr

/-- `SimulationMetrics` (src/src/simulation/metrics.py lines 9-19). -/
structure SimulationMetrics where
  phase : String
  total_transfers : ℕ
  successful_transfers : ℕ
  failed_transfers : ℕ
  duration_seconds : ℚ
  deadlocked : Bool
  transactions : List Transaction

/-- `SimulationMetrics.success_rate` (metrics.py lines 21-26): 0 when
`total_transfers == 0`, else `successful / total * 100`. -/
def SimulationMetrics.success_rate (m : SimulationMetrics) : ℚ :=
  if m.total_transfers = 0 then 0
  else (m.successful_transfers : ℚ) / (m.total_transfers : ℚ) * 100

/-- Metrics construction performed by `TransactionSimulator.run`
(simulator.py lines 96-124): `successful` counts the collected records
with `success` true, `failed` those with `success` false,
`total_transfers` is the number of submitted requests
(`len(self.transfers_data)`), and the deadlock flag is set exactly when
the concurrent execution timed out. -/
def simRun (phase : String) (numRequests : ℕ)
    (transactions : List Transaction) (deadlocked : Bool) (duration : ℚ) :
    SimulationMetrics :=
  { phase := phase
    total_transfers := numRequests
    successful_transfers := (transactions.filter (fun t => t.success)).length
    failed_transfers := (transactions.filter (fun t => !t.success)).length
    duration_seconds := duration
    deadlocked := deadlocked
    transactions := transactions }

/-- Position of one transfer worker in the two-lock critical-section
protocol shared by both disciplines (acquire first lock, acquire second
lock, mutate, release both): not yet holding a lock, holding its first
lock, holding both locks, or finished with both locks released.  The
releases cannot block, so they are collapsed into the final step. -/
inductive TState where
  | start
  | holdingFirst
  | holdingBoth
  | done
deriving DecidableEq, Repr

/-- A batch of `n` concurrent transfer workers over the shared
per-account locks: worker `i` executes `transfer (fromId i) (toId i)`
and currently sits at protocol position `ts i`.  The account ids are
fixed for the run; only the protocol positions evolve. -/
structure LockSys (n : ℕ) where
  fromId : Fin n → ℕ
  toId : Fin n → ℕ
  ts : Fin n → TState

/-- Advance worker `i` to protocol position `st`. -/
def setTs {n : ℕ} (s : LockSys n) (i : Fin n) (st : TState) : LockSys n :=
  { s with ts := Function.update s.ts i st }

/-- Id of the lock worker `i` acquires first under the Ordered
discipline: the lower account id, exactly as chosen by
`Phase2Bank._get_ordered_accounts` (lock order is independent of the
balances). -/
def firstLock {n : ℕ} (s : LockSys n) (i : Fin n) : ℕ :=
  (Phase2Bank.get_ordered_accounts ⟨s.fromId i, 0⟩ ⟨s.toId i, 0⟩).1.id

/-- Id of the lock worker `i` acquires second under the Ordered
discipline. -/
def secondLock {n : ℕ} (s : LockSys n) (i : Fin n) : ℕ :=
  (Phase2Bank.get_ordered_accounts ⟨s.fromId i, 0⟩ ⟨s.toId i, 0⟩).2.id

/-- Does worker `i` currently hold the lock of account `l`, under the
Ordered discipline's acquisition order? -/
def holds {n : ℕ} (s : LockSys n) (i : Fin n) (l : ℕ) : Bool :=
  match s.ts i with
  | .start => false
  | .holdingFirst => l == firstLock s i
  | .holdingBoth => l == firstLock s i || l == secondLock s i
  | .done => false

/-- Account `l`'s mutex is free: no worker holds it. -/
def lockFree {n : ℕ} (s : LockSys n) (l : ℕ) : Prop :=
  ∀ j, holds s j l = false

/-- Interleaving semantics of a batch of Ordered (`Phase2Bank.transfer`)
workers: a worker may acquire its first (lower-id) lock when that lock
is free, then its second lock when that lock is free, and once it holds
both it runs the critical section and releases both locks.  Acquiring a
held lock blocks, which is modelled by the absence of a step. -/
inductive OStep {n : ℕ} : LockSys n → LockSys n → Prop where
  | acquireFirst (s : LockSys n) (i : Fin n) :
      s.ts i = TState.start → lockFree s (firstLock s i) →
      OStep s (setTs s i TState.holdingFirst)
  | acquireSecond (s : LockSys n) (i : Fin n) :
      s.ts i = TState.holdingFirst → lockFree s (secondLock s i) →
      OStep s (setTs s i TState.holdingBoth)
  | finishTransfer (s : LockSys n) (i : Fin n) :
      s.ts i = TState.holdingBoth →
      OStep s (setTs s i TState.done)

/-- Number of protocol steps worker state `st` still has ahead of it. -/
def weight : TState → ℕ
  | .start => 3
  | .holdingFirst => 2
  | .holdingBoth => 1
  | .done => 0

/-- Total remaining protocol steps of the batch: a strictly decreasing
measure along every step, bounding every execution. -/
def sysMeasure {n : ℕ} (s : LockSys n) : ℕ :=
  ∑ i, weight (s.ts i)

/-- Lock acquired first under the Naive discipline
(`Phase1Bank.transfer`): the transfer's source account, irrespective of
id order. -/
def nFirstLock {n : ℕ} (s : LockSys n) (i : Fin n) : ℕ :=
  s.fromId i

/-- Lock acquired second under the Naive discipline: the destination
account. -/
def nSecondLock {n : ℕ} (s : LockSys n) (i : Fin n) : ℕ :=
  s.toId i

/-- Does worker `i` hold lock `l`, under the Naive acquisition order? -/
def nholds {n : ℕ} (s : LockSys n) (i : Fin n) (l : ℕ) : Bool :=
  match s.ts i with
  | .start => false
  | .holdingFirst => l == nFirstLock s i
  | .holdingBoth => l == nFirstLock s i || l == nSecondLock s i
  | .done => false

/-- Account `l`'s mutex is free in the Naive system. -/
def nlockFree {n : ℕ} (s : LockSys n) (l : ℕ) : Prop :=
  ∀ j, nholds s j l = false

instance instDecLockFree {n : ℕ} (s : LockSys n) (l : ℕ) :
    Decidable (lockFree s l) :=
  inferInstanceAs (Decidable (∀ j, holds s j l = false))

instance instDecNlockFree {n : ℕ} (s : LockSys n) (l : ℕ) :
    Decidable (nlockFree s l) :=
  inferInstanceAs (Decidable (∀ j, nholds s j l = false))

/-- Interleaving semantics of a batch of Naive (`Phase1Bank.transfer`)
workers: source lock first, destination lock second. -/
inductive NStep {n : ℕ} : LockSys n → LockSys n → Prop where
  | acquireFirst (s : LockSys n) (i : Fin n) :
      s.ts i = TState.start → nlockFree s (nFirstLock s i) →
      NStep s (setTs s i TState.holdingFirst)
  | acquireSecond (s : LockSys n) (i : Fin n) :
      s.ts i = TState.holdingFirst → nlockFree s (nSecondLock s i) →
      NStep s (setTs s i TState.holdingBoth)
  | finishTransfer (s : LockSys n) (i : Fin n) :
      s.ts i = TState.holdingBoth →
      NStep s (setTs s i TState.done)

/-- Two opposing transfers, account 1 → account 2 on worker 0 and
account 2 → account 1 on worker 1, both about to start: the classic
AB-BA scenario from the spec and from the phase-1 docstring. -/
def opposingPair : LockSys 2 :=
  { fromId := fun i => if i.val = 0 then 1 else 2
    toId := fun i => if i.val = 0 then 2 else 1
    ts := fun _ => TState.start }

/-- The same opposing pair but with each Naive worker holding its source
account's lock: worker 0 holds lock 1 and wants lock 2, worker 1 holds
lock 2 and wants lock 1. -/
def naiveStuck : LockSys 2 :=
  setTs (setTs opposingPair 0 TState.holdingFirst) 1 TState.holdingFirst

end SistemaBancario

namespace SistemaBancario

/-- C6: `_get_ordered_accounts` is symmetric on accounts with distinct
ids and returns (account with the lower id, account with the higher id). -/
theorem get_ordered_accounts_symmetric (a1 a2 : Account)
    (h : a1.id ≠ a2.id) :
    Phase2Bank.get_ordered_accounts a1 a2 = Phase2Bank.get_ordered_accounts a2 a1 ∧
    (Phase2Bank.get_ordered_accounts a1 a2).1.id = min a1.id a2.id ∧
    (Phase2Bank.get_ordered_accounts a1 a2).2.id = max a1.id a2.id ∧
    (Phase2Bank.get_ordered_accounts a1 a2 = (a1, a2) ∨
      Phase2Bank.get_ordered_accounts a1 a2 = (a2, a1)) := by
  rcases lt_or_gt_of_ne h with hlt | hgt
  · have h21 : ¬ a2.id < a1.id := not_lt_of_gt hlt
    simp [Phase2Bank.get_ordered_accounts, hlt, h21, le_of_lt hlt,
      min_eq_left, max_eq_right]
  · have h12 : ¬ a1.id < a2.id := not_lt_of_gt hgt
    simp [Phase2Bank.get_ordered_accounts, hgt, h12, le_of_lt hgt,
      min_eq_right, max_eq_left]

/-- Witness for C6 at the concrete pair of accounts 1 and 2. -/
theorem get_ordered_accounts_symmetric_witness :
    Phase2Bank.get_ordered_accounts ⟨1, 1000⟩ ⟨2, 1000⟩ =
      Phase2Bank.get_ordered_accounts ⟨2, 1000⟩ ⟨1, 1000⟩ ∧
    (Phase2Bank.get_ordered_accounts ⟨1, 1000⟩ ⟨2, 1000⟩).1.id = min 1 2 ∧
    (Phase2Bank.get_ordered_accounts ⟨1, 1000⟩ ⟨2, 1000⟩).2.id = max 1 2 ∧
    (Phase2Bank.get_ordered_accounts ⟨1, 1000⟩ ⟨2, 1000⟩ = (⟨1, 1000⟩, ⟨2, 1000⟩) ∨
      Phase2Bank.get_ordered_accounts ⟨1, 1000⟩ ⟨2, 1000⟩ = (⟨2, 1000⟩, ⟨1, 1000⟩)) :=
  get_ordered_accounts_symmetric ⟨1, 1000⟩ ⟨2, 1000⟩ (by decide)

/-- C8 counterexample: the claimed formula `min(len(requests), workerCap)`
with a caller-chosen cap disagrees with the source, which hardcodes the
cap at 20: with 10 requests and a requested cap of 5, the source's pool
size is 10, not 5. -/
theorem maxWorkers_ignores_requested_cap :
    maxWorkers 10 ≠ maxWorkersSpec 10 5 := by
  decide

/-- C8 amended: the cap is the fixed literal 20, not a parameter; for
every request count the pool size equals the spec's formula evaluated at
the default cap 20. -/
theorem maxWorkers_eq_spec_at_default_cap (numTransfers : ℕ) :
    maxWorkers numTransfers = maxWorkersSpec numTransfers 20 := by
  rfl

/-- C9 counterexample: `Account.deposit` accepts the non-positive amount
0 (its guard is `amount < 0`), so the claim that every non-positive
amount is rejected is false: depositing 0 into account 1 with balance
1000 succeeds. -/
theorem deposit_accepts_zero :
    Account.deposit ⟨1, 1000⟩ 0 = Except.ok ⟨1, 1000⟩ := by
  simp [Account.deposit]

/-- C9 amended: `deposit` rejects exactly the negative amounts (0 is
accepted as a no-op) and otherwise adds exactly `amount`; `withdraw`
rejects negative amounts, then fails with "Insufficient funds" when
`balance < amount`, and otherwise subtracts exactly `amount`. -/
theorem account_deposit_withdraw_spec (a : Account) (amount : ℚ) :
    (amount < 0 → a.deposit amount = .error "Deposit amount must be positive") ∧
    (0 ≤ amount → a.deposit amount = .ok ⟨a.id, a.balance + amount⟩) ∧
    (amount < 0 → a.withdraw amount = .error "Withdrawal amount must be positive") ∧
    (0 ≤ amount → a.balance < amount → a.withdraw amount = .error "Insufficient funds") ∧
    (0 ≤ amount → amount ≤ a.balance → a.withdraw amount = .ok ⟨a.id, a.balance - amount⟩) := by
  refine ⟨fun hneg => ?_, fun hpos => ?_, fun hneg => ?_,
    fun hpos hlt => ?_, fun hpos hle => ?_⟩
  · simp [Account.deposit, hneg]
  · simp [Account.deposit, not_lt_of_ge hpos]
  · simp [Account.withdraw, hneg]
  · simp [Account.withdraw, not_lt_of_ge hpos, hlt]
  · simp [Account.withdraw, not_lt_of_ge hpos, not_lt_of_ge hle]

/-- Witness for C9's amended theorem: withdraw 300 from balance 1000. -/
theorem account_deposit_withdraw_spec_witness :
    (0 : ℚ) ≤ 300 ∧ (300 : ℚ) ≤ 1000 ∧
    Account.withdraw ⟨1, 1000⟩ 300 = .ok ⟨1, 1000 - 300⟩ :=
  ⟨by norm_num, by norm_num,
    (account_deposit_withdraw_spec ⟨1, 1000⟩ 300).2.2.2.2 (by norm_num) (by norm_num)⟩

/-- C2: for a bank holding distinct accounts `fid` (balance `fb`) and
`tid` (balance `tb`) and a positive amount, `transfer` succeeds exactly
when `amount ≤ fb`; on success the source loses exactly `amount`, the
destination gains exactly `amount`, and every other account is untouched;
when `fb < amount` the error is `insufficientFunds` and the bank is
unchanged.  Both disciplines agree on error and resulting balances. -/
theorem transfer_succeeds_iff_sufficient_funds (b : BankSt) (fid tid : ℕ)
    (amount fb tb : ℚ) (hf : b fid = some fb) (ht : b tid = some tb)
    (hne : fid ≠ tid) (hpos : 0 < amount) :
    ((Phase2Bank.transfer b fid tid amount).error = none ↔ amount ≤ fb) ∧
    (amount ≤ fb →
      (Phase2Bank.transfer b fid tid amount).bank fid = some (fb - amount) ∧
      (Phase2Bank.transfer b fid tid amount).bank tid = some (tb + amount) ∧
      ∀ k, k ≠ fid → k ≠ tid →
        (Phase2Bank.transfer b fid tid amount).bank k = b k) ∧
    (fb < amount →
      (Phase2Bank.transfer b fid tid amount).error = some .insufficientFunds ∧
      (Phase2Bank.transfer b fid tid amount).bank = b) ∧
    (Phase1Bank.transfer b fid tid amount).error =
      (Phase2Bank.transfer b fid tid amount).error ∧
    (Phase1Bank.transfer b fid tid amount).bank =
      (Phase2Bank.transfer b fid tid amount).bank := by
  have hnp : ¬ amount ≤ 0 := not_le_of_gt hpos
  by_cases hlt : fb < amount
  · refine ⟨?_, fun hle => absurd hle (not_le_of_gt hlt), fun _ => ⟨?_, ?_⟩, ?_, ?_⟩ <;>
      simp [Phase1Bank.transfer, Phase2Bank.transfer, hne, hnp, hf, ht, hlt,
        not_le_of_gt hlt]
  · have hle : amount ≤ fb := le_of_not_lt hlt
    refine ⟨?_, fun _ => ⟨?_, ?_, fun k hk1 hk2 => ?_⟩,
      fun h => absurd h hlt, ?_, ?_⟩
    · simp [Phase2Bank.transfer, hne, hnp, hf, ht, hlt, hle]
    · simp [Phase2Bank.transfer, hne, hnp, hf, ht, hlt, updateBal]
    · simp [Phase2Bank.transfer, hne, hnp, hf, ht, hlt, updateBal]
    · simp [Phase2Bank.transfer, hne, hnp, hf, ht, hlt, updateBal, hk1, hk2]
    · simp [Phase1Bank.transfer, Phase2Bank.transfer, hne, hnp, hf, ht, hlt]
    · simp [Phase1Bank.transfer, Phase2Bank.transfer, hne, hnp, hf, ht, hlt]

/-- Witness for C2: Scenario 1 — in `demoBank`, transfer(1, 2, 100)
succeeds and leaves account 1 at 900 and account 2 at 1100. -/
theorem transfer_succeeds_iff_sufficient_funds_witness :
    (Phase2Bank.transfer demoBank 1 2 100).error = none ∧
    (Phase2Bank.transfer demoBank 1 2 100).bank 1 = some 900 ∧
    (Phase2Bank.transfer demoBank 1 2 100).bank 2 = some 1100 := by
  have h := transfer_succeeds_iff_sufficient_funds demoBank 1 2 100 1000 1000
    rfl rfl (by decide) (by norm_num)
  have hs := h.2.1 (by norm_num)
  refine ⟨h.1.mpr (by norm_num), ?_, ?_⟩
  · rw [hs.1]; norm_num
  · rw [hs.2.1]; norm_num

/-- C3: transfer is atomic with respect to errors — whenever either
discipline's `transfer` reports an error, the bank state after the call
is exactly the bank state before it; and on success both mutations have
happened, the source decremented and the destination incremented. -/
theorem transfer_atomic_on_error (b : BankSt) (fid tid : ℕ) (amount : ℚ) :
    (∀ e, (Phase1Bank.transfer b fid tid amount).error = some e →
      (Phase1Bank.transfer b fid tid amount).bank = b) ∧
    (∀ e, (Phase2Bank.transfer b fid tid amount).error = some e →
      (Phase2Bank.transfer b fid tid amount).bank = b) ∧
    ((Phase1Bank.transfer b fid tid amount).error = none →
      ∃ fb tb, b fid = some fb ∧ b tid = some tb ∧ amount ≤ fb ∧
        (Phase1Bank.transfer b fid tid amount).bank =
          updateBal (updateBal b fid (fb - amount)) tid (tb + amount)) ∧
    ((Phase2Bank.transfer b fid tid amount).error = none →
      ∃ fb tb, b fid = some fb ∧ b tid = some tb ∧ amount ≤ fb ∧
        (Phase2Bank.transfer b fid tid amount).bank =
          updateBal (updateBal b fid (fb - amount)) tid (tb + amount)) := by
  by_cases h1 : fid = tid
  · simp [Phase1Bank.transfer, Phase2Bank.transfer, h1]
  by_cases h2 : amount ≤ 0
  · simp [Phase1Bank.transfer, Phase2Bank.transfer, h1, h2]
  rcases hbf : b fid with _ | fb
  · simp [Phase1Bank.transfer, Phase2Bank.transfer, h1, h2, hbf]
  rcases hbt : b tid with _ | tb
  · simp [Phase1Bank.transfer, Phase2Bank.transfer, h1, h2, hbf, hbt]
  by_cases h3 : fb < amount
  · simp [Phase1Bank.transfer, Phase2Bank.transfer, h1, h2, hbf, hbt, h3]
  · refine ⟨?_, ?_, fun _ => ⟨fb, tb, rfl, rfl, le_of_not_lt h3, ?_⟩,
      fun _ => ⟨fb, tb, rfl, rfl, le_of_not_lt h3, ?_⟩⟩ <;>
      simp [Phase1Bank.transfer, Phase2Bank.transfer, h1, h2, hbf, hbt, h3]

/-- Witness for C3: a same-account transfer in `demoBank` errors and
leaves the bank untouched. -/
theorem transfer_atomic_on_error_witness :
    (Phase1Bank.transfer demoBank 1 1 100).bank = demoBank :=
  (transfer_atomic_on_error demoBank 1 1 100).1 .invalidRequest (by decide)

/-- C4: the Naive (Phase 1) and Ordered (Phase 2) transfers are
sequentially equivalent — same error and same final balances on every
input — and differ only in lock-acquisition order: the lock lists are
equal or reversed. -/
theorem phase1_phase2_sequentially_equivalent (b : BankSt) (fid tid : ℕ)
    (amount : ℚ) :
    (Phase1Bank.transfer b fid tid amount).error =
      (Phase2Bank.transfer b fid tid amount).error ∧
    (Phase1Bank.transfer b fid tid amount).bank =
      (Phase2Bank.transfer b fid tid amount).bank ∧
    ((Phase1Bank.transfer b fid tid amount).locks =
        (Phase2Bank.transfer b fid tid amount).locks ∨
      (Phase1Bank.transfer b fid tid amount).locks =
        (Phase2Bank.transfer b fid tid amount).locks.reverse) := by
  by_cases h1 : fid = tid
  · simp [Phase1Bank.transfer, Phase2Bank.transfer, h1]
  by_cases h2 : amount ≤ 0
  · simp [Phase1Bank.transfer, Phase2Bank.transfer, h1, h2]
  rcases hbf : b fid with _ | fb
  · simp [Phase1Bank.transfer, Phase2Bank.transfer, h1, h2, hbf]
  rcases hbt : b tid with _ | tb
  · simp [Phase1Bank.transfer, Phase2Bank.transfer, h1, h2, hbf, hbt]
  by_cases ho : fid < tid
  · by_cases h3 : fb < amount <;>
      simp [Phase1Bank.transfer, Phase2Bank.transfer,
        Phase2Bank.get_ordered_accounts, h1, h2, hbf, hbt, h3, ho]
  · by_cases h3 : fb < amount <;>
      simp [Phase1Bank.transfer, Phase2Bank.transfer,
        Phase2Bank.get_ordered_accounts, h1, h2, hbf, hbt, h3, ho]

/-- C5: both disciplines validate before touching any lock — a
same-account transfer fails with `invalidRequest` regardless of amount; a
non-positive amount fails with `invalidRequest`; an unknown id fails with
`accountNotFound`; and in each of these cases the list of acquired locks
is empty. -/
theorem validation_before_any_lock (b : BankSt) (fid tid : ℕ) (amount : ℚ) :
    (fid = tid →
      (Phase1Bank.transfer b fid tid amount).error = some .invalidRequest ∧
      (Phase1Bank.transfer b fid tid amount).locks = [] ∧
      (Phase2Bank.transfer b fid tid amount).error = some .invalidRequest ∧
      (Phase2Bank.transfer b fid tid amount).locks = []) ∧
    (fid ≠ tid → amount ≤ 0 →
      (Phase1Bank.transfer b fid tid amount).error = some .invalidRequest ∧
      (Phase1Bank.transfer b fid tid amount).locks = [] ∧
      (Phase2Bank.transfer b fid tid amount).error = some .invalidRequest ∧
      (Phase2Bank.transfer b fid tid amount).locks = []) ∧
    (fid ≠ tid → 0 < amount → (b fid = none ∨ b tid = none) →
      (Phase1Bank.transfer b fid tid amount).error = some .accountNotFound ∧
      (Phase1Bank.transfer b fid tid amount).locks = [] ∧
      (Phase2Bank.transfer b fid tid amount).error = some .accountNotFound ∧
      (Phase2Bank.transfer b fid tid amount).locks = []) := by
  refine ⟨fun h1 => ?_, fun h1 h2 => ?_, fun h1 h2 hnone => ?_⟩
  · simp [Phase1Bank.transfer, Phase2Bank.transfer, h1]
  · simp [Phase1Bank.transfer, Phase2Bank.transfer, h1, h2]
  · rcases hnone with hfn | htn
    · simp [Phase1Bank.transfer, Phase2Bank.transfer, h1,
        not_le_of_gt h2, hfn]
    · rcases hbf : b fid with _ | fb <;>
        simp [Phase1Bank.transfer, Phase2Bank.transfer, h1,
          not_le_of_gt h2, hbf, htn]

/-- Witness for C5: transferring to the unknown account 3 in `demoBank`
fails with `accountNotFound` and acquires no lock. -/
theorem validation_before_any_lock_witness :
    (Phase1Bank.transfer demoBank 1 3 100).error = some .accountNotFound ∧
    (Phase1Bank.transfer demoBank 1 3 100).locks = [] ∧
    (Phase2Bank.transfer demoBank 1 3 100).error = some .accountNotFound ∧
    (Phase2Bank.transfer demoBank 1 3 100).locks = [] :=
  (validation_before_any_lock demoBank 1 3 100).2.2 (by decide) (by norm_num)
    (Or.inr rfl)

/-- C10: in a run over `numRequests` submitted requests where each
request's unit of work has either completed with one record or is still
pending (`outcomes`, one entry per request), the metrics satisfy:
successful + failed = number of collected records; the records are at
most `total_transfers`, with equality whenever the run did not time out;
`success_rate` is computed over `total_transfers` (not over the
records), so a run with missing records reports a rate no larger than
the rate over the records actually collected. -/
theorem metrics_record_accounting (phase : String) (numRequests : ℕ)
    (outcomes : List (Option Transaction)) (deadlocked : Bool) (duration : ℚ)
    (hlen : outcomes.length = numRequests)
    (hcomplete : deadlocked = false → ∀ o ∈ outcomes, o.isSome) :
    (simRun phase numRequests outcomes.reduceOption deadlocked
        duration).successful_transfers +
      (simRun phase numRequests outcomes.reduceOption deadlocked
        duration).failed_transfers = outcomes.reduceOption.length ∧
    outcomes.reduceOption.length ≤ numRequests ∧
    (deadlocked = false → outcomes.reduceOption.length = numRequests) ∧
    (simRun phase numRequests outcomes.reduceOption deadlocked
        duration).success_rate =
      (if numRequests = 0 then 0 else
        ((simRun phase numRequests outcomes.reduceOption deadlocked
          duration).successful_transfers : ℚ) / (numRequests : ℚ) * 100) ∧
    (0 < outcomes.reduceOption.length →
      (simRun phase numRequests outcomes.reduceOption deadlocked
        duration).success_rate ≤
      ((simRun phase numRequests outcomes.reduceOption deadlocked
        duration).successful_transfers : ℚ) /
        (outcomes.reduceOption.length : ℚ) * 100) := by
  have hrec : outcomes.reduceOption.length ≤ numRequests :=
    hlen ▸ List.reduceOption_length_le outcomes
  refine ⟨?_, hrec, fun hnd => ?_, rfl, fun hpos => ?_⟩
  · exact (List.length_eq_length_filter_add (l := outcomes.reduceOption)
      (fun t => t.success)).symm
  · exact hlen ▸ List.reduceOption_length_eq_iff.mpr (hcomplete hnd)
  · have hNR : numRequests ≠ 0 := by omega
    have hsucc : (0 : ℚ) ≤
        ((simRun phase numRequests outcomes.reduceOption deadlocked
          duration).successful_transfers : ℚ) := Nat.cast_nonneg _
    have hdiv := div_le_div_of_nonneg_left hsucc
      (by exact_mod_cast hpos :
        (0 : ℚ) < (outcomes.reduceOption.length : ℚ))
      (by exact_mod_cast hrec :
        (outcomes.reduceOption.length : ℚ) ≤ (numRequests : ℚ))
    calc (simRun phase numRequests outcomes.reduceOption deadlocked
        duration).success_rate
        = ((simRun phase numRequests outcomes.reduceOption deadlocked
            duration).successful_transfers : ℚ) / (numRequests : ℚ) * 100 := by
          simp [SimulationMetrics.success_rate, simRun, hNR]
      _ ≤ ((simRun phase numRequests outcomes.reduceOption deadlocked
            duration).successful_transfers : ℚ) /
            (outcomes.reduceOption.length : ℚ) * 100 := by
          exact mul_le_mul_of_nonneg_right hdiv (by norm_num)

/-- Witness for C10: two submitted requests, one completed successful
record, a timed-out run. -/
theorem metrics_record_accounting_witness :
    (simRun "Phase1Bank" 2
        [some ⟨1, 2, 100, 0, true, "w", none⟩, none].reduceOption true
        1).successful_transfers +
      (simRun "Phase1Bank" 2
        [some ⟨1, 2, 100, 0, true, "w", none⟩, none].reduceOption true
        1).failed_transfers =
      [some (⟨1, 2, 100, 0, true, "w", none⟩ : Transaction),
        none].reduceOption.length ∧
    [some (⟨1, 2, 100, 0, true, "w", none⟩ : Transaction),
      none].reduceOption.length ≤ 2 ∧
    (true = false →
      [some (⟨1, 2, 100, 0, true, "w", none⟩ : Transaction),
        none].reduceOption.length = 2) ∧
    (simRun "Phase1Bank" 2
        [some ⟨1, 2, 100, 0, true, "w", none⟩, none].reduceOption true
        1).success_rate =
      (if 2 = 0 then 0 else
        ((simRun "Phase1Bank" 2
          [some ⟨1, 2, 100, 0, true, "w", none⟩, none].reduceOption true
          1).successful_transfers : ℚ) / (2 : ℚ) * 100) ∧
    (0 < [some (⟨1, 2, 100, 0, true, "w", none⟩ : Transaction),
        none].reduceOption.length →
      (simRun "Phase1Bank" 2
        [some ⟨1, 2, 100, 0, true, "w", none⟩, none].reduceOption true
        1).success_rate ≤
      ((simRun "Phase1Bank" 2
        [some ⟨1, 2, 100, 0, true, "w", none⟩, none].reduceOption true
        1).successful_transfers : ℚ) /
        ([some (⟨1, 2, 100, 0, true, "w", none⟩ : Transaction),
          none].reduceOption.length : ℚ) * 100) :=
  metrics_record_accounting "Phase1Bank" 2
    [some ⟨1, 2, 100, 0, true, "w", none⟩, none] true 1 rfl
    (fun h => nomatch h)

/-- Under the Ordered discipline every worker's first lock has the
strictly lower id: a direct consequence of `_get_ordered_accounts`. -/
theorem firstLock_lt_secondLock {n : ℕ} (s : LockSys n) (i : Fin n)
    (h : s.fromId i ≠ s.toId i) : firstLock s i < secondLock s i := by
  by_cases hlt : s.fromId i < s.toId i
  · simp [firstLock, secondLock, Phase2Bank.get_ordered_accounts, hlt]
  · simp [firstLock, secondLock, Phase2Bank.get_ordered_accounts, hlt]
    omega

/-- Advancing one worker changes the measure by that worker's weight. -/
theorem sysMeasure_setTs {n : ℕ} (s : LockSys n) (i : Fin n) (st : TState) :
    sysMeasure (setTs s i st) + weight (s.ts i) = sysMeasure s + weight st := by
  have h1 : sysMeasure (setTs s i st) =
      ∑ j, Function.update (fun k => weight (s.ts k)) i (weight st) j := by
    refine Finset.sum_congr rfl fun j _ => ?_
    by_cases hj : j = i
    · subst hj; simp [setTs]
    · simp [setTs, Function.update_apply, hj]
  rw [h1, Finset.sum_update_of_mem (Finset.mem_univ i)]
  unfold sysMeasure
  rw [Finset.sum_eq_sum_diff_singleton_add (Finset.mem_univ i)
    (fun k => weight (s.ts k))]
  omega

/-- A worker stepping to a lighter state strictly decreases the measure. -/
theorem sysMeasure_setTs_lt {n : ℕ} (s : LockSys n) (i : Fin n) (st : TState)
    (h : weight st < weight (s.ts i)) :
    sysMeasure (setTs s i st) < sysMeasure s := by
  have := sysMeasure_setTs s i st
  omega

/-- A worker holding some lock is in `holdingFirst` (holding exactly its
first lock) or `holdingBoth`. -/
theorem holds_state {n : ℕ} (s : LockSys n) (j : Fin n) (l : ℕ)
    (h : holds s j l = true) :
    (s.ts j = TState.holdingFirst ∧ l = firstLock s j) ∨
    (s.ts j = TState.holdingBoth ∧
      (l = firstLock s j ∨ l = secondLock s j)) := by
  cases hts : s.ts j with
  | start => simp [holds, hts] at h
  | holdingFirst => exact Or.inl ⟨rfl, by simpa [holds, hts] using h⟩
  | holdingBoth => exact Or.inr ⟨rfl, by simpa [holds, hts] using h⟩
  | done => simp [holds, hts] at h

/-- C1: the Ordered discipline is deadlock-free.  In every batch of
concurrent Ordered transfers (each over two distinct accounts), every
state in which not all workers are finished admits a step, and every
step strictly decreases `sysMeasure` — so no execution can get stuck or
run forever: every maximal run ends with all transfers complete
(`deadlocked = false`).  The proof is the global-order argument: were
every non-finished worker blocked, the worker holding the
maximum-id held lock would be waiting on a lock of even higher id held
by someone else, which is impossible. -/
theorem ordered_locking_no_deadlock {n : ℕ} (s : LockSys n)
    (hwf : ∀ i, s.fromId i ≠ s.toId i)
    (hnd : ¬ ∀ i, s.ts i = TState.done) :
    ∃ s', OStep s s' ∧ sysMeasure s' < sysMeasure s := by
  by_cases hBoth : ∃ i, s.ts i = TState.holdingBoth
  · obtain ⟨i, hi⟩ := hBoth
    exact ⟨setTs s i TState.done, OStep.finishTransfer s i hi,
      sysMeasure_setTs_lt s i TState.done (by simp [hi, weight])⟩
  by_cases hSec : ∃ i, s.ts i = TState.holdingFirst ∧
      lockFree s (secondLock s i)
  · obtain ⟨i, hi, hfree⟩ := hSec
    exact ⟨setTs s i TState.holdingBoth, OStep.acquireSecond s i hi hfree,
      sysMeasure_setTs_lt s i TState.holdingBoth (by simp [hi, weight])⟩
  by_cases hFst : ∃ i, s.ts i = TState.start ∧ lockFree s (firstLock s i)
  · obtain ⟨i, hi, hfree⟩ := hFst
    exact ⟨setTs s i TState.holdingFirst, OStep.acquireFirst s i hi hfree,
      sysMeasure_setTs_lt s i TState.holdingFirst (by simp [hi, weight])⟩
  exfalso
  push_neg at hnd hBoth
  obtain ⟨i0, hi0⟩ := hnd
  have hHF : (Finset.univ.filter
      (fun i => s.ts i = TState.holdingFirst)).Nonempty := by
    by_contra hemp
    have hnof : ∀ j, s.ts j ≠ TState.holdingFirst := by
      intro j hj
      exact hemp ⟨j, Finset.mem_filter.mpr ⟨Finset.mem_univ j, hj⟩⟩
    have hstart : s.ts i0 = TState.start := by
      cases h : s.ts i0
      · rfl
      · exact absurd h (hnof i0)
      · exact absurd h (hBoth i0)
      · exact absurd h hi0
    have hnfree : ¬ lockFree s (firstLock s i0) := fun hfree =>
      hFst ⟨i0, hstart, hfree⟩
    obtain ⟨j, hj⟩ : ∃ j, holds s j (firstLock s i0) = true := by
      by_contra hall
      push_neg at hall
      refine hnfree fun j => ?_
      cases hb : holds s j (firstLock s i0)
      · rfl
      · exact absurd hb (hall j)
    rcases holds_state s j _ hj with ⟨hj1, _⟩ | ⟨hj1, _⟩
    · exact hnof j hj1
    · exact hBoth j hj1
  obtain ⟨m, hm, hmax⟩ := Finset.exists_max_image _
    (fun i => firstLock s i) hHF
  have hmF : s.ts m = TState.holdingFirst := (Finset.mem_filter.mp hm).2
  have hnfree : ¬ lockFree s (secondLock s m) := fun hfree =>
    hSec ⟨m, hmF, hfree⟩
  obtain ⟨j, hj⟩ : ∃ j, holds s j (secondLock s m) = true := by
    by_contra hall
    push_neg at hall
    refine hnfree fun j => ?_
    cases hb : holds s j (secondLock s m)
    · rfl
    · exact absurd hb (hall j)
  rcases holds_state s j _ hj with ⟨hj1, hj2⟩ | ⟨hj1, _⟩
  · have hjmem : j ∈ Finset.univ.filter
        (fun i => s.ts i = TState.holdingFirst) :=
      Finset.mem_filter.mpr ⟨Finset.mem_univ j, hj1⟩
    have hle : firstLock s j ≤ firstLock s m := hmax j hjmem
    have hlt : firstLock s m < secondLock s m :=
      firstLock_lt_secondLock s m (hwf m)
    omega
  · exact hBoth j hj1

/-- Witness for C1: the opposing AB-BA pair under the Ordered discipline
can step (and keeps being able to step until both transfers finish). -/
theorem ordered_locking_no_deadlock_witness :
    ∃ s', OStep opposingPair s' ∧
      sysMeasure s' < sysMeasure opposingPair :=
  ordered_locking_no_deadlock opposingPair (by decide) (by decide)

/-- C7: under the Naive discipline, from the opposing AB-BA pair the
interleaving in which each worker grabs its source lock is reachable,
and in the resulting state no worker is finished and no step will ever
be possible again — the two workers are blocked forever.  Consequently
`run`'s post-timeout join on its worker threads (the implicit
`ThreadPoolExecutor` shutdown performed when the `with` block exits)
never returns: the harness blocks forever instead of returning the
partial, `deadlocked = true` metrics its own timeout handler was meant
to produce. -/
theorem naive_opposing_transfers_deadlock :
    Relation.ReflTransGen NStep opposingPair naiveStuck ∧
    (¬ ∀ i, naiveStuck.ts i = TState.done) ∧
    ¬ ∃ s', NStep naiveStuck s' := by
  refine ⟨?_, by decide, ?_⟩
  · have h1 : NStep opposingPair
        (setTs opposingPair 0 TState.holdingFirst) :=
      NStep.acquireFirst opposingPair 0 rfl (by decide)
    have h2 : NStep (setTs opposingPair 0 TState.holdingFirst) naiveStuck :=
      NStep.acquireFirst (setTs opposingPair 0 TState.holdingFirst) 1
        rfl (by decide)
    exact Relation.ReflTransGen.head h1 (Relation.ReflTransGen.single h2)
  · rintro ⟨s', hstep⟩
    cases hstep with
    | acquireFirst i h1 h2 => fin_cases i <;> exact absurd h1 (by decide)
    | acquireSecond i h1 h2 =>
        fin_cases i
        · exact absurd (h2 1) (by decide)
        · exact absurd (h2 0) (by decide)
    | finishTransfer i h1 => fin_cases i <;> exact absurd h1 (by decide)

end SistemaBancario
